import Mathlib

/-!
Verification of the DrawingBoard class (src/main.js): a canvas-backed freehand
drawing surface with a bounded undo (revoke) stack of pixel snapshots, a
rotatable background image, and mouse/touch event routing.

JavaScript numbers are modelled as rationals extended with NaN and the two
infinities (the source only adds, multiplies, divides, truncates and compares,
so rational arithmetic is exact for every value the claims mention).  Pixel
surfaces are modelled symbolically: every getImageData / putImageData /
clearRect call in the source covers the full surface (0, 0, width, height),
so a snapshot is simply the current surface value.
-/

/-- A JavaScript number: finite (exact rational), NaN, or an infinity. -/

inductive JSNum where
  | fin (q : ℚ)
  | nan
  | posInf
  | negInf
deriving DecidableEq, Repr

/-- A JavaScript value, restricted to the shapes the verified code inspects. -/

inductive JSVal where
  | num (n : JSNum)
  | str (s : String)
  | bool (b : Bool)
  | undefined
  | null
deriving DecidableEq, Repr

/-- Result of a JS function that returns a number or `undefined`. -/

inductive JSRet where
  | num (n : JSNum)
  | undefined
deriving DecidableEq, Repr

/-! ### Kernel-computable arithmetic on ℚ

The standard `Rat.add`, `Rat.sub`, `Rat.mul` and `Rat.inv` are marked
irreducible, which blocks `decide` on concrete inputs.  The operations below
compute the same exact rationals through `Rat.divInt` (which does reduce) and
are proved equal to the standard operations, so concrete states remain
decidable while abstract proofs can rewrite to ordinary arithmetic. -/

/-- Exact addition on ℚ, kernel-computable. -/

def qadd (a b : ℚ) : ℚ := Rat.divInt (a.num * b.den + b.num * a.den) (a.den * b.den)

/-- Exact subtraction on ℚ, kernel-computable. -/

def qsub (a b : ℚ) : ℚ := Rat.divInt (a.num * b.den - b.num * a.den) (a.den * b.den)

/-- Exact multiplication on ℚ, kernel-computable. -/

def qmul (a b : ℚ) : ℚ := Rat.divInt (a.num * b.num) (a.den * b.den)

/-- Exact division on ℚ, kernel-computable (`qdiv a 0 = 0`, matching `a / 0`). -/

def qdiv (a b : ℚ) : ℚ := Rat.divInt (a.num * b.den) (b.num * a.den)

/-- Exact absolute value on ℚ, kernel-computable. -/

def qabs (q : ℚ) : ℚ := if q < 0 then -q else q

/-- Truncation toward zero, as used by the JS `%` operator. -/

def jsTrunc (q : ℚ) : ℤ := if 0 ≤ q then ⌊q⌋ else ⌈q⌉

/-- Source `a % b` on finite JS numbers with `b ≠ 0`: remainder with the sign of the
dividend, `a - b * trunc (a / b)`. -/

def jsModQ (a b : ℚ) : ℚ := qsub a (qmul b (jsTrunc (qdiv a b) : ℚ))

/-- JS `%` on numbers: NaN and infinite dividends give NaN; a finite value
modulo an infinity is itself; modulus 0 gives NaN. -/

def jsModN : JSNum → JSNum → JSNum
  | .fin a, .fin b => if b = 0 then .nan else .fin (jsModQ a b)
  | .fin a, .posInf => .fin a
  | .fin a, .negInf => .fin a
  | _, _ => .nan

/-- JS `+` on numbers. -/

def jsAddN : JSNum → JSNum → JSNum
  | .fin a, .fin b => .fin (qadd a b)
  | .fin _, .posInf => .posInf
  | .fin _, .negInf => .negInf
  | .posInf, .fin _ => .posInf
  | .negInf, .fin _ => .negInf
  | .posInf, .posInf => .posInf
  | .negInf, .negInf => .negInf
  | _, _ => .nan

/-- JS `*` on numbers (`0 * ±∞ = NaN`). -/

def jsMulN : JSNum → JSNum → JSNum
  | .fin a, .fin b => .fin (qmul a b)
  | .posInf, .fin b => if b = 0 then .nan else if 0 < b then .posInf else .negInf
  | .negInf, .fin b => if b = 0 then .nan else if 0 < b then .negInf else .posInf
  | .fin a, .posInf => if a = 0 then .nan else if 0 < a then .posInf else .negInf
  | .fin a, .negInf => if a = 0 then .nan else if 0 < a then .negInf else .posInf
  | .posInf, .posInf => .posInf
  | .negInf, .negInf => .posInf
  | .posInf, .negInf => .negInf
  | .negInf, .posInf => .negInf
  | _, _ => .nan

/-- JS `/` on numbers (division by 0 gives a signed infinity or NaN). -/

def jsDivN : JSNum → JSNum → JSNum
  | .fin a, .fin b =>
      if b = 0 then (if a = 0 then .nan else if 0 < a then .posInf else .negInf)
      else .fin (qdiv a b)
  | .posInf, .fin b => if 0 ≤ b then .posInf else .negInf
  | .negInf, .fin b => if 0 ≤ b then .negInf else .posInf
  | .fin _, .posInf => .fin 0
  | .fin _, .negInf => .fin 0
  | _, _ => .nan

/-- JS `Math.floor`. -/

def jsFloorN : JSNum → JSNum
  | .fin q => .fin ⌊q⌋
  | .nan => .nan
  | .posInf => .posInf
  | .negInf => .negInf

/-- JS `Math.ceil`. -/

def jsCeilN : JSNum → JSNum
  | .fin q => .fin ⌈q⌉
  | .nan => .nan
  | .posInf => .posInf
  | .negInf => .negInf

/-- JS `Math.abs`. -/

def jsAbsN : JSNum → JSNum
  | .fin q => .fin (qabs q)
  | .nan => .nan
  | _ => .posInf

/-- JS `<` on numbers: any comparison with NaN is false. -/

def jsLtN : JSNum → JSNum → Bool
  | .fin a, .fin b => decide (a < b)
  | .fin _, .posInf => true
  | .fin _, .negInf => false
  | .posInf, .fin _ => false
  | .negInf, .fin _ => true
  | .negInf, .posInf => true
  | .posInf, .negInf => false
  | .posInf, .posInf => false
  | .negInf, .negInf => false
  | _, _ => false

/-- JS `>=` on numbers: any comparison with NaN is false. -/

def jsGeN : JSNum → JSNum → Bool
  | .fin a, .fin b => decide (b ≤ a)
  | .fin _, .posInf => false
  | .fin _, .negInf => true
  | .posInf, .fin _ => true
  | .negInf, .fin _ => false
  | .negInf, .posInf => false
  | .posInf, .negInf => true
  | .posInf, .posInf => true
  | .negInf, .negInf => true
  | _, _ => false

/-! ### `_getLawfulRotateAngle` (main.js lines 638-650)

The source is a single function; its local variables `tempAngle`, `newAngle`
and `roundAngle` are split into named definitions line by line. -/

/-- Source `const tempAngle = angle % 360`. -/

def tempAngleOf (n : JSNum) : JSNum := jsModN n (.fin 360)

/-- Source `const newAngle = tempAngle < 0 ? tempAngle + 360 : tempAngle`. -/

def newAngleOf (t : JSNum) : JSNum :=
  if jsLtN t (.fin 0) then jsAddN t (.fin 360) else t

/-- Source `const roundAngle = newAngle % 90 >= 45 ? Math.ceil(newAngle / 90) * 90 % 360
: Math.floor(newAngle / 90) * 90 % 360`. -/

def roundAngleOf (n : JSNum) : JSNum :=
  if jsGeN (jsModN n (.fin 90)) (.fin 45) then
    jsModN (jsMulN (jsCeilN (jsDivN n (.fin 90))) (.fin 90)) (.fin 360)
  else
    jsModN (jsMulN (jsFloorN (jsDivN n (.fin 90))) (.fin 90)) (.fin 360)

/-- Source `_getLawfulRotateAngle(angle)`: returns `undefined` when
`typeof angle !== "number" || isNaN(angle)`, otherwise normalizes the angle.
Note that the infinities pass the guard (`typeof Infinity === "number"` and
`isNaN(Infinity)` is false) and flow through the arithmetic as NaN. -/

def _getLawfulRotateAngle : JSVal → JSRet
  | .num .nan => .undefined
  | .num n => .num (jsAbsN (roundAngleOf (newAngleOf (tempAngleOf n))))
  | _ => .undefined

/-- Coercion of a returned value back to an argument value (used when the
normalizer is applied to its own result). -/

def retToVal : JSRet → JSVal
  | .num n => .num n
  | .undefined => .undefined

/-! ### `_getLawfulMaxRevokeSteps` (main.js lines 441-447) -/

/-- Source `_getLawfulMaxRevokeSteps(steps)`: returns 10 when
`steps <= 0 || typeof steps !== "number" || isNaN(steps)`, caps at 50,
otherwise returns the input unchanged.  `+Infinity` passes the guard and is
capped at 50; every non-number (strings included, whatever their numeric
coercion in `steps <= 0`) falls to 10 through the `typeof` test. -/

def _getLawfulMaxRevokeSteps : JSVal → ℚ
  | .num (.fin q) => if q ≤ 0 then 10 else if 50 < q then 50 else q
  | .num .negInf => 10
  | .num .posInf => 50
  | _ => 10

-- sanity checks on concrete values from the spec

/-! ### The board state

Surface pixels are modelled symbolically.  Every `getImageData`,
`putImageData` and `clearRect` call in the source covers the full surface
`(0, 0, this.width, this.height)`, so a snapshot is the current surface value
and `putImageData(imageData, 0, 0)` replaces the surface value wholesale. -/

/-- Symbolic full-surface raster content. -/

inductive PixelData where
  /-- content present before the operations under consideration -/
  | init
  /-- after `clearRect(0, 0, width, height)` -/
  | cleared
  /-- after `drawImage` of the background under the recorded rotation and
  geometry (`_drawBg`) over `base` -/
  | withBg (base : PixelData) (rot : JSRet) (surfW surfH w h : ℚ)
  /-- after `_drawCircle(x, y, r, color)` over `base` -/
  | withCircle (base : PixelData) (x y : ℚ) (r : JSNum) (color : String)
  /-- after `_drawLine(x1, y1, x2, y2, w, color)` over `base` -/
  | withLine (base : PixelData) (x1 y1 x2 y2 : ℚ) (w : JSNum) (color : String)
deriving DecidableEq, Repr

/-- One entry of `revokeStack`: `{ type, paintCount, imageData }`
(main.js line 470). -/

structure HistoryEntry where
  type : String
  paintCount : ℕ
  imageData : PixelData
deriving DecidableEq, Repr

/-- The mutable state of a `DrawingBoard` instance.  `hasEl` / `hasCtx` model
`this.el` / `this.ctx` being non-null; `hasBgImgObject` models
`this._bgImgObject` being truthy; `hasRevokeCb` models `onRevokeStackChange`
being a registered function; `cbTrace` records the argument of every
`onRevokeStackChange` invocation (an observation artifact, mutated only next
to the calls in the source).  Fields that no claim touches (`className`,
`manualMount`, `bgImgURL`, `bgColor`, `onPaintEnd`) are omitted. -/

structure DrawingBoard where
  hasEl : Bool
  hasCtx : Bool
  width : ℚ
  height : ℚ
  penColor : String
  penWidth : JSNum
  interactiveMode : String
  MAX_REVOKE_STEPS : ℚ
  revokeStack : List HistoryEntry
  paintCount : ℕ
  bgImgRotate : JSRet
  hasBgImgObject : Bool
  originalSize : Option (ℚ × ℚ)
  pix : PixelData
  hasRevokeCb : Bool
  cbTrace : List (List HistoryEntry)
  isPainting : Bool
  lastPoint : Option (ℚ × ℚ)
deriving DecidableEq, Repr

/-- Source `_saveImageData(type, paintCount, imageData)` (main.js lines 455-477):
guard the arguments, `shift()` the oldest entry when the stack is at or over
`MAX_REVOKE_STEPS`, `push` the new entry, then notify `onRevokeStackChange`
with the resulting stack.  In the model the `paintCount == null` and
`instanceof ImageData` guards always pass. -/

def _saveImageData (type : String) (paintCount : ℕ) (imageData : PixelData)
    (s : DrawingBoard) : DrawingBoard :=
  if ¬ (type = "paint" ∨ type = "clear") then s
  else
    let stack1 := if s.MAX_REVOKE_STEPS ≤ (s.revokeStack.length : ℚ) then
        s.revokeStack.drop 1 else s.revokeStack
    let stack2 := stack1 ++ [⟨type, paintCount, imageData⟩]
    let s' := { s with revokeStack := stack2 }
    if s.hasRevokeCb then { s' with cbTrace := s'.cbTrace ++ [stack2] } else s'

/-- Source `_revoke()` (main.js lines 506-528): return unless there is a context and
a non-empty stack; `pop()` the newest entry, `putImageData` its snapshot back
over the full surface, restore `paintCount` from the entry, then notify
`onRevokeStackChange` with the remaining stack. -/

def _revoke (s : DrawingBoard) : DrawingBoard :=
  if s.hasCtx = false then s
  else
    match s.revokeStack.getLast? with
    | none => s
    | some e =>
      let stack' := s.revokeStack.dropLast
      let s' := { s with revokeStack := stack', pix := e.imageData,
                         paintCount := e.paintCount }
      if s.hasRevokeCb then { s' with cbTrace := s'.cbTrace ++ [stack'] } else s'

/-- Source `revoke()` (main.js lines 695-697). -/

def revoke (s : DrawingBoard) : DrawingBoard := _revoke s

/-- Source `_drawBg(imgObject, w, h)` (main.js lines 565-632): return unless the
image object, the context, and positive truthy dimensions are present;
otherwise draw the image over the current surface with geometry computed from
the current rotation and surface size. -/

def _drawBg (imgObject : Bool) (w h : ℚ) (s : DrawingBoard) : DrawingBoard :=
  if imgObject = false ∨ s.hasCtx = false ∨ w = 0 ∨ h = 0 ∨ w ≤ 0 ∨ h ≤ 0 then s
  else { s with pix := .withBg s.pix s.bgImgRotate s.width s.height w h }

/-- Source `setSize([width, height])` (main.js lines 728-733): each dimension is
stored only when truthy (`if (width) ... if (height) ...`); `_setDOMSize`
touches only the DOM element. -/

def setSize (w h : ℚ) (s : DrawingBoard) : DrawingBoard :=
  let s1 := if w ≠ 0 then { s with width := w } else s
  if h ≠ 0 then { s1 with height := h } else s1

/-- Source `clear()` (main.js lines 702-721): return unless context and element are
present; snapshot the current surface tagged `clear` with the current paint
count, blank the surface, reset the paint count, then redraw the background
if one is held.  (`_bgImgObject` is only ever set truthy together with
`originalSize`, so the `none` branch is unreachable in executions of the
class; it is kept total here.) -/

def clear (s : DrawingBoard) : DrawingBoard :=
  if s.hasCtx = false ∨ s.hasEl = false then s
  else
    let s1 := _saveImageData "clear" s.paintCount s.pix s
    let s2 := { s1 with pix := PixelData.cleared }
    let s3 := { s2 with paintCount := 0 }
    if s3.hasBgImgObject then
      match s3.originalSize with
      | some (w, h) => _drawBg true w h s3
      | none => s3
    else s3

/-- Source `this.bgImgRotate + direction * 90` (main.js line 667): when
`bgImgRotate` is `undefined` (a possible result of `_getLawfulRotateAngle`),
JS coerces it to NaN. -/

def jsretAddQ (r : JSRet) (q : ℚ) : JSVal :=
  match r with
  | .undefined => .num .nan
  | .num n => .num (jsAddN n (.fin q))

/-- Source `rotate(direction)` (main.js lines 663-679): reject directions other than
`1`/`-1`; advance and normalize the rotation, swap stored width/height via
`setSize([this.height, this.width])`, then evaluate
`this._drawBg(this._bgImgObject, ...this.originalSize)`.  When
`originalSize` was never set (no background ever resolved) the spread of
`undefined` throws a TypeError — the returned flag is `true` and the
mutations already performed (rotation, size) stay, while
`paintCount = 0` and `revokeStack = []` are never reached. -/

def rotate (d : ℚ) (s : DrawingBoard) : DrawingBoard × Bool :=
  if ¬ (d = 1 ∨ d = -1) then (s, false)
  else
    let s1 := { s with bgImgRotate := _getLawfulRotateAngle (jsretAddQ s.bgImgRotate (qmul d 90)) }
    let s2 := setSize s1.height s1.width s1
    match s2.originalSize with
    | none => (s2, true)
    | some (w, h) =>
      let s3 := _drawBg s2.hasBgImgObject w h s2
      ({ s3 with paintCount := 0, revokeStack := [] }, false)

/-- JS truthiness of the values `setPenStyle` can receive. -/

def truthyVal : JSVal → Bool
  | .num (.fin q) => q ≠ 0
  | .num .nan => false
  | .num .posInf => true
  | .num .negInf => true
  | .str v => v ≠ ""
  | .bool b => b
  | .undefined => false
  | .null => false

/-- Source `typeof v === "string"`. -/

def isStringVal : JSVal → Bool
  | .str _ => true
  | _ => false

/-- Source `typeof v === "number"`. -/

def isNumberVal : JSVal → Bool
  | .num _ => true
  | _ => false

/-- Source `isNaN(v)` for values already known to be numbers. -/

def isNaNVal : JSVal → Bool
  | .num .nan => true
  | _ => false

/-- Source `v > 0` under JS comparison (false for NaN). -/

def gtZeroVal : JSVal → Bool
  | .num n => jsLtN (.fin 0) n
  | _ => false

/-- The string payload (used only under the `typeof === "string"` guard). -/

def strOfVal : JSVal → String
  | .str v => v
  | _ => ""

/-- The number payload (used only under the `typeof === "number"` guard). -/

def numOfVal : JSVal → JSNum
  | .num n => n
  | _ => .nan

/-- Source `setPenStyle({color, width})` (main.js lines 685-690): the color is stored
when truthy and a string; the width is stored when truthy, a number, not NaN
and `> 0`. -/

def setPenStyle (color width : JSVal) (s : DrawingBoard) : DrawingBoard :=
  let s1 := if truthyVal color && isStringVal color then
      { s with penColor := strOfVal color } else s
  if truthyVal width && isNumberVal width && !isNaNVal width && gtZeroVal width then
    { s1 with penWidth := numOfVal width } else s1

/-- Source `_drawCircle(x, y, radius, color)` (main.js lines 375-386): no-op without
a context. -/

def _drawCircle (x y : ℚ) (r : JSNum) (color : String) (s : DrawingBoard) :
    DrawingBoard :=
  if s.hasCtx then { s with pix := .withCircle s.pix x y r color } else s

/-- Source `_drawLine(x1, y1, x2, y2, width, color)` (main.js lines 397-412): no-op
without a context. -/

def _drawLine (x1 y1 x2 y2 : ℚ) (w : JSNum) (color : String) (s : DrawingBoard) :
    DrawingBoard :=
  if s.hasCtx then { s with pix := .withLine s.pix x1 y1 x2 y2 w color } else s

/-- Source `_handlePointerStart(e)` (main.js lines 285-309) with the event already
normalized to a point: set the painting flag and last point, snapshot the
surface tagged `paint` when a context exists, draw the starting dot with
radius `penWidth / 2`.  (Event binding churn affects only the listener table,
handled separately below.) -/

def _handlePointerStart (x y : ℚ) (s : DrawingBoard) : DrawingBoard :=
  let s1 := { s with isPainting := true, lastPoint := some (x, y) }
  let s2 := if s1.hasCtx then _saveImageData "paint" s1.paintCount s1.pix s1 else s1
  _drawCircle x y (jsDivN s2.penWidth (.fin 2)) s2.penColor s2

/-- Source `_handlePointerMove(e)` (main.js lines 315-325): no-op unless painting;
draw a segment from the stored last point and advance it.  (`lastPoint` is
never null while painting in executions of the class; kept total here.) -/

def _handlePointerMove (x y : ℚ) (s : DrawingBoard) : DrawingBoard :=
  if s.isPainting = false then s
  else
    match s.lastPoint with
    | none => s
    | some (lx, ly) =>
      let s1 := _drawLine lx ly x y s.penWidth s.penColor s
      { s1 with lastPoint := some (x, y) }

/-- Source `_handlePointerEnd(e)` (main.js lines 331-347): leave the painting state
and increment the paint count (the `onPaintEnd` callback carries no state the
claims observe). -/

def _handlePointerEnd (s : DrawingBoard) : DrawingBoard :=
  { s with isPainting := false, paintCount := s.paintCount + 1 }

/-- The public operations (and asynchronous completions) that can mutate a
board.  `reInitOp` carries the relevant already-destructured options of
`_init`; `bgResolved`/`bgFailed` are the completion events of an asynchronous
background-image load (`_getImageFromURL().then/.catch` in `_init` and
`setBgImg`). -/

inductive Op where
  | mount
  | pointerStart (x y : ℚ)
  | pointerMove (x y : ℚ)
  | pointerEnd
  | clearOp
  | revokeOp
  | rotateOp (d : ℚ)
  | setSizeOp (w h : ℚ)
  | setPenStyleOp (color width : JSVal)
  | bgResolved (w h : ℚ)
  | bgFailed
  | destory
  | reInitOp (w h : ℚ) (maxSteps : JSVal) (mode : String) (rotOpt : JSVal)
      (penC penW : JSVal) (cb : Bool)
deriving DecidableEq, Repr

/-- One public operation applied to a board state. -/

def applyOp (s : DrawingBoard) : Op → DrawingBoard
  | .mount => { s with hasEl := true, hasCtx := true }
  | .pointerStart x y => _handlePointerStart x y s
  | .pointerMove x y => _handlePointerMove x y s
  | .pointerEnd => _handlePointerEnd s
  | .clearOp => clear s
  | .revokeOp => revoke s
  | .rotateOp d => (rotate d s).1
  | .setSizeOp w h => setSize w h s
  | .setPenStyleOp c w => setPenStyle c w s
  | .bgResolved w h =>
      _drawBg true w h { s with hasBgImgObject := true, originalSize := some (w, h) }
  | .bgFailed => { s with hasBgImgObject := false }
  | .destory => { s with hasEl := false, hasBgImgObject := false }
  | .reInitOp w h maxSteps mode rotOpt penC penW cb =>
      let s1 := setSize w h s
      let s2 := { s1 with
        revokeStack := [],
        MAX_REVOKE_STEPS := _getLawfulMaxRevokeSteps maxSteps,
        lastPoint := none,
        isPainting := false,
        interactiveMode :=
          if mode = "mouse" ∨ mode = "touch" ∨ mode = "both" then mode else "mouse" }
      let s3 := setPenStyle penC penW s2
      let s4 := { s3 with
        bgImgRotate := _getLawfulRotateAngle rotOpt,
        hasBgImgObject := false,
        hasRevokeCb := cb,
        paintCount := 0 }
      { s4 with hasEl := true, hasCtx := true }

/-- A freshly constructed, mounted board with default options on a
300 × 150 container. -/

def initialBoard : DrawingBoard where
  hasEl := true
  hasCtx := true
  width := 300
  height := 150
  penColor := "red"
  penWidth := .fin 6
  interactiveMode := "mouse"
  MAX_REVOKE_STEPS := 10
  revokeStack := []
  paintCount := 0
  bgImgRotate := .num (.fin 0)
  hasBgImgObject := false
  originalSize := none
  pix := .init
  hasRevokeCb := false
  cbTrace := []
  isPainting := false
  lastPoint := none

/-- The C2 invariant: the resolved capacity is positive and the stack length
never exceeds its ceiling (which is the capacity itself whenever the resolved
capacity is an integer). -/

def StackInv (s : DrawingBoard) : Prop :=
  0 < s.MAX_REVOKE_STEPS ∧ (s.revokeStack.length : ℤ) ≤ ⌈s.MAX_REVOKE_STEPS⌉

instance (s : DrawingBoard) : Decidable (StackInv s) := by
  unfold StackInv
  infer_instance

/-! ### Event routing (`eventList`, `_getPointerType`, `_getEventItems`,
`_bindCurModeEvents`) -/

/-- One row of `this.eventList` (main.js lines 101-150).  The handler is
identified by the name of the bound method. -/

structure EventItem where
  pointerType : String
  action : String
  name : String
  handler : String
deriving DecidableEq, Repr

/-- Source `this.eventList` (main.js lines 101-150). -/

def eventList : List EventItem :=
  [⟨"mouse", "start", "mousedown", "_handlePointerStartBinded"⟩,
   ⟨"mouse", "move", "mousemove", "_handlePointerMoveBinded"⟩,
   ⟨"mouse", "end", "mouseup", "_handlePointerEndBinded"⟩,
   ⟨"mouse", "leave", "mouseleave", "_handlePointerLeaveBinded"⟩,
   ⟨"touch", "start", "touchstart", "_handlePointerStartBinded"⟩,
   ⟨"touch", "move", "touchmove", "_handlePointerMoveBinded"⟩,
   ⟨"touch", "end", "touchend", "_handlePointerEndBinded"⟩,
   ⟨"touch", "cancel", "touchcancel", "_handlePointerCancelBinded"⟩]

/-- Source `_getPointerType(mode)` (main.js lines 222-230). -/

def _getPointerType (mode : String) : String :=
  if mode = "both" then "" else if mode = "touch" then "touch" else "mouse"

/-- The condition object passed between the event helpers.  The source
constructs it as `{ pointerType, action }` — it carries a `pointerType` key
and an `action` key and no `mode` key, so reading `condition.mode` yields
`undefined` (`none`). -/

structure JSCondition where
  pointerType : Option String := none
  mode : Option String := none
  action : Option String := none
deriving DecidableEq, Repr

/-- JS truthiness of a possibly-undefined string. -/

def truthyStr : Option String → Bool
  | none => false
  | some s => s ≠ ""

/-- Reading `item.mode`: `EventItem` rows carry `pointerType`, `action`,
`name`, `handler` — there is no `mode` key, so the access yields `undefined`. -/

def itemModeKey (_ : EventItem) : Option String := none

/-- Source `_getEventItems({mode, action})` (main.js lines 237-250): destructures the
keys `mode` and `action` from the condition and filters `eventList`
accordingly.  Callers pass the pointer family under the key `pointerType`, so
`mode` is always `undefined` here. -/

def _getEventItems (c : JSCondition) : List EventItem :=
  if truthyStr c.mode ∧ truthyStr c.action then
    eventList.filter (fun it => itemModeKey it == c.mode && some it.action == c.action)
  else if truthyStr c.mode then
    eventList.filter (fun it => itemModeKey it == c.mode)
  else if truthyStr c.action then
    eventList.filter (fun it => some it.action == c.action)
  else eventList

/-- Source `_bindCurModeEvents({action})` (main.js lines 191-201): computes the
pointer family for the configured mode, builds the condition
`{ pointerType, action }`, and binds the items `_getEventItems` returns for
it (after unbinding the same set).  Returns the list of items whose handlers
get bound. -/

def _bindCurModeEvents (interactiveMode : String) (action : String) : List EventItem :=
  _getEventItems
    { pointerType := some (_getPointerType interactiveMode), action := some action }

/-- A board that painted one stroke but never had a background image: its
`originalSize` was never assigned. -/

def c10BoardNoBg : DrawingBoard :=
  { initialBoard with
    revokeStack := [⟨"paint", 0, PixelData.init⟩],
    hasRevokeCb := true }

/-- The same board after a background image of natural size 100 × 100
resolved. -/

def c10BoardWithBg : DrawingBoard :=
  { c10BoardNoBg with
    originalSize := some (100, 100),
    hasBgImgObject := true }

theorem num_eq_self_mul_den (a : ℚ) : (a.num : ℚ) = a * a.den :=
  (div_eq_iff (by exact_mod_cast a.den_nz)).mp (Rat.num_div_den a)

theorem qadd_eq (a b : ℚ) : qadd a b = a + b := by
  have had : ((a.den : ℚ)) ≠ 0 := by exact_mod_cast a.den_nz
  have hbd : ((b.den : ℚ)) ≠ 0 := by exact_mod_cast b.den_nz
  unfold qadd
  rw [Rat.divInt_eq_div]
  push_cast
  rw [div_eq_iff (mul_ne_zero had hbd), num_eq_self_mul_den, num_eq_self_mul_den]
  ring

theorem qsub_eq (a b : ℚ) : qsub a b = a - b := by
  have had : ((a.den : ℚ)) ≠ 0 := by exact_mod_cast a.den_nz
  have hbd : ((b.den : ℚ)) ≠ 0 := by exact_mod_cast b.den_nz
  unfold qsub
  rw [Rat.divInt_eq_div]
  push_cast
  rw [div_eq_iff (mul_ne_zero had hbd), num_eq_self_mul_den, num_eq_self_mul_den]
  ring

theorem qmul_eq (a b : ℚ) : qmul a b = a * b := by
  have had : ((a.den : ℚ)) ≠ 0 := by exact_mod_cast a.den_nz
  have hbd : ((b.den : ℚ)) ≠ 0 := by exact_mod_cast b.den_nz
  unfold qmul
  rw [Rat.divInt_eq_div]
  push_cast
  rw [div_eq_iff (mul_ne_zero had hbd), num_eq_self_mul_den, num_eq_self_mul_den]
  ring

theorem qdiv_eq (a b : ℚ) : qdiv a b = a / b := by
  unfold qdiv
  rcases eq_or_ne b 0 with hb | hb
  · subst hb
    norm_num
  · have had : ((a.den : ℚ)) ≠ 0 := by exact_mod_cast a.den_nz
    have hbn : b.num ≠ 0 := Rat.num_ne_zero.mpr hb
    have hY : ((b.num * a.den : ℤ) : ℚ) ≠ 0 := by
      push_cast
      exact mul_ne_zero (by exact_mod_cast hbn) had
    rw [Rat.divInt_eq_div, div_eq_div_iff hY hb]
    push_cast
    rw [num_eq_self_mul_den, num_eq_self_mul_den]
    ring

theorem qabs_eq (q : ℚ) : qabs q = |q| := by
  unfold qabs
  rcases lt_or_le q 0 with h | h
  · rw [if_pos h, abs_of_neg h]
  · rw [if_neg (not_lt.mpr h), abs_of_nonneg h]

theorem jsModQ_eq (a b : ℚ) : jsModQ a b = a - b * (jsTrunc (a / b) : ℚ) := by
  rw [jsModQ, qsub_eq, qmul_eq, qdiv_eq]

/-! ### Range analysis of the angle normalizer -/

theorem jsModN_fin (a b : ℚ) (hb : b ≠ 0) :
    jsModN (.fin a) (.fin b) = .fin (jsModQ a b) := by
  simp [jsModN, hb]

theorem jsLtN_fin (a b : ℚ) : jsLtN (.fin a) (.fin b) = decide (a < b) := rfl

theorem jsGeN_fin (a b : ℚ) : jsGeN (.fin a) (.fin b) = decide (b ≤ a) := rfl

theorem jsModQ_nonneg_bounds (a b : ℚ) (ha : 0 ≤ a) (hb : 0 < b) :
    0 ≤ jsModQ a b ∧ jsModQ a b < b := by
  rw [jsModQ_eq]
  have hdiv : 0 ≤ a / b := div_nonneg ha hb.le
  rw [jsTrunc, if_pos hdiv]
  have hba : b * (a / b) = a := by
    field_simp
  constructor
  · have h1 : ((⌊a / b⌋ : ℤ) : ℚ) ≤ a / b := Int.floor_le _
    have h2 := mul_le_mul_of_nonneg_left h1 hb.le
    rw [hba] at h2
    linarith
  · have h1 : a / b < (⌊a / b⌋ : ℚ) + 1 := Int.lt_floor_add_one _
    have h2 := mul_lt_mul_of_pos_left h1 hb
    rw [hba] at h2
    linarith

theorem jsModQ_neg_bounds (a b : ℚ) (ha : a < 0) (hb : 0 < b) :
    -b < jsModQ a b ∧ jsModQ a b ≤ 0 := by
  rw [jsModQ_eq]
  have hdiv : a / b < 0 := div_neg_of_neg_of_pos ha hb
  rw [jsTrunc, if_neg (not_le.mpr hdiv)]
  have hba : b * (a / b) = a := by
    field_simp
  constructor
  · have h1 : ((⌈a / b⌉ : ℤ) : ℚ) < a / b + 1 := Int.ceil_lt_add_one _
    have h2 := mul_lt_mul_of_pos_left h1 hb
    rw [mul_add, hba, mul_one] at h2
    linarith
  · have h1 : a / b ≤ ((⌈a / b⌉ : ℤ) : ℚ) := Int.le_ceil _
    have h2 := mul_le_mul_of_nonneg_left h1 hb.le
    rw [hba] at h2
    linarith

theorem tempAngle_fin (q : ℚ) : tempAngleOf (.fin q) = .fin (jsModQ q 360) := by
  rw [tempAngleOf, jsModN_fin _ _ (by norm_num)]

theorem newAngle_bounds (q : ℚ) :
    ∃ n : ℚ, newAngleOf (tempAngleOf (.fin q)) = .fin n ∧ 0 ≤ n ∧ n < 360 := by
  rw [tempAngle_fin]
  rcases le_or_lt 0 q with hq | hq
  · obtain ⟨h0, h1⟩ := jsModQ_nonneg_bounds q 360 hq (by norm_num)
    refine ⟨jsModQ q 360, ?_, h0, h1⟩
    rw [newAngleOf, jsLtN_fin, decide_eq_false (not_lt.mpr h0)]
    simp
  · obtain ⟨h0, h1⟩ := jsModQ_neg_bounds q 360 hq (by norm_num)
    rcases lt_or_eq_of_le h1 with h1' | h1'
    · refine ⟨jsModQ q 360 + 360, ?_, by linarith, by linarith⟩
      rw [newAngleOf, jsLtN_fin, decide_eq_true h1']
      simp [jsAddN, qadd_eq]
    · refine ⟨jsModQ q 360, ?_, by rw [h1'], by rw [h1']; norm_num⟩
      rw [newAngleOf, jsLtN_fin, decide_eq_false (not_lt.mpr h1'.ge)]
      simp

theorem roundAngle_cases (n : ℚ) (h0 : 0 ≤ n) (h1 : n < 360) :
    ∃ r : ℚ, jsAbsN (roundAngleOf (.fin n)) = .fin r ∧
      (r = 0 ∨ r = 90 ∨ r = 180 ∨ r = 270) := by
  obtain ⟨k, hk⟩ : ∃ k : ℤ, ⌊n / 90⌋ = k := ⟨_, rfl⟩
  have hdiv0 : 0 ≤ n / 90 := div_nonneg h0 (by norm_num)
  have hk0 : 0 ≤ k := hk ▸ Int.le_floor.mpr (by exact_mod_cast hdiv0)
  have hk4 : k < 4 := by
    rw [← hk]
    refine Int.floor_lt.mpr ?_
    push_cast
    rw [div_lt_iff₀ (by norm_num : (0:ℚ) < 90)]
    linarith
  obtain ⟨hm0, hm90⟩ := jsModQ_nonneg_bounds n 90 h0 (by norm_num)
  have hmval : jsModQ n 90 = n - 90 * (k : ℚ) := by
    rw [jsModQ_eq, jsTrunc, if_pos hdiv0, hk]
  have hdivN : jsDivN (.fin n) (.fin 90) = .fin (n / 90) := by
    rw [jsDivN, if_neg (by norm_num : ¬ (90:ℚ) = 0), qdiv_eq]
  rw [roundAngleOf, jsModN_fin _ _ (by norm_num : (90:ℚ) ≠ 0), jsGeN_fin]
  rcases le_or_lt 45 (jsModQ n 90) with h45 | h45
  · rw [decide_eq_true h45, if_pos rfl, hdivN]
    have hceil : ⌈n / 90⌉ = k + 1 := by
      rw [Int.ceil_eq_iff]
      constructor
      · push_cast
        rw [lt_div_iff₀ (by norm_num : (0:ℚ) < 90)]
        rw [hmval] at h45
        linarith
      · push_cast
        rw [div_le_iff₀ (by norm_num : (0:ℚ) < 90)]
        rw [hmval] at hm90
        linarith
    rw [jsCeilN, hceil]
    refine ⟨_, rfl, ?_⟩
    interval_cases k <;> decide
  · rw [decide_eq_false (not_le.mpr h45), if_neg (by simp), hdivN]
    rw [jsFloorN, hk]
    refine ⟨_, rfl, ?_⟩
    interval_cases k <;> decide

/-- For every finite number, `_getLawfulRotateAngle` returns a finite number
in `{0, 90, 180, 270}`. -/

theorem lawfulRotate_fin_cases (q : ℚ) :
    ∃ r : ℚ, _getLawfulRotateAngle (.num (.fin q)) = .num (.fin r) ∧
      (r = 0 ∨ r = 90 ∨ r = 180 ∨ r = 270) := by
  obtain ⟨n, hn, h0, h1⟩ := newAngle_bounds q
  obtain ⟨r, hr, hcases⟩ := roundAngle_cases n h0 h1
  refine ⟨r, ?_, hcases⟩
  have hunf : _getLawfulRotateAngle (.num (.fin q)) =
      .num (jsAbsN (roundAngleOf (newAngleOf (tempAngleOf (.fin q))))) := rfl
  rw [hunf, hn, hr]

/-- The resolved max-revoke-steps always lies in `(0, 50]`. -/

theorem lawfulMaxRevokeSteps_bounds (v : JSVal) :
    0 < _getLawfulMaxRevokeSteps v ∧ _getLawfulMaxRevokeSteps v ≤ 50 := by
  match v with
  | .num (.fin q) =>
    simp only [_getLawfulMaxRevokeSteps]
    rcases le_or_lt q 0 with h | h
    · rw [if_pos h]
      norm_num
    · rw [if_neg (not_le.mpr h)]
      rcases le_or_lt q 50 with h' | h'
      · rw [if_neg (not_lt.mpr h')]
        exact ⟨h, h'⟩
      · rw [if_pos h']
        norm_num
  | .num .nan => exact ⟨by decide, by decide⟩
  | .num .posInf => exact ⟨by decide, by decide⟩
  | .num .negInf => exact ⟨by decide, by decide⟩
  | .str s =>
    exact ⟨by norm_num [_getLawfulMaxRevokeSteps],
           by norm_num [_getLawfulMaxRevokeSteps]⟩
  | .bool b =>
    exact ⟨by norm_num [_getLawfulMaxRevokeSteps],
           by norm_num [_getLawfulMaxRevokeSteps]⟩
  | .undefined => exact ⟨by decide, by decide⟩
  | .null => exact ⟨by decide, by decide⟩

/-- Source `_saveImageData` leaves every field except `revokeStack` and `cbTrace`
unchanged. -/

theorem saveImageData_fields (t : String) (pc : ℕ) (img : PixelData)
    (s : DrawingBoard) :
    (_saveImageData t pc img s).hasCtx = s.hasCtx ∧
    (_saveImageData t pc img s).hasEl = s.hasEl ∧
    (_saveImageData t pc img s).hasRevokeCb = s.hasRevokeCb ∧
    (_saveImageData t pc img s).pix = s.pix ∧
    (_saveImageData t pc img s).paintCount = s.paintCount ∧
    (_saveImageData t pc img s).MAX_REVOKE_STEPS = s.MAX_REVOKE_STEPS ∧
    (_saveImageData t pc img s).hasBgImgObject = s.hasBgImgObject ∧
    (_saveImageData t pc img s).originalSize = s.originalSize := by
  unfold _saveImageData
  split_ifs <;> simp

/-- The stack produced by `_saveImageData` when the argument guard passes:
eviction of exactly the oldest entry when at or over capacity, plain append
otherwise. -/

theorem saveImageData_stack (t : String) (pc : ℕ) (img : PixelData)
    (s : DrawingBoard) (ht : t = "paint" ∨ t = "clear") :
    (_saveImageData t pc img s).revokeStack =
      (if s.MAX_REVOKE_STEPS ≤ (s.revokeStack.length : ℚ) then
        s.revokeStack.drop 1 else s.revokeStack) ++ [⟨t, pc, img⟩] := by
  unfold _saveImageData
  rw [if_neg (not_not_intro ht)]
  split_ifs <;> simp

/-- Source `_saveImageData` preserves the stack-length invariant. -/

theorem saveImageData_inv (t : String) (pc : ℕ) (img : PixelData)
    (s : DrawingBoard) (hM : 0 < s.MAX_REVOKE_STEPS)
    (hlen : (s.revokeStack.length : ℤ) ≤ ⌈s.MAX_REVOKE_STEPS⌉) :
    ((_saveImageData t pc img s).revokeStack.length : ℤ) ≤ ⌈s.MAX_REVOKE_STEPS⌉ := by
  by_cases ht : t = "paint" ∨ t = "clear"
  · rw [saveImageData_stack t pc img s ht]
    rcases le_or_lt s.MAX_REVOKE_STEPS (s.revokeStack.length : ℚ) with hcap | hcap
    · rw [if_pos hcap]
      have hpos : 1 ≤ s.revokeStack.length := by
        rcases Nat.eq_zero_or_pos s.revokeStack.length with h0 | h1
        · rw [h0] at hcap
          norm_num at hcap
          linarith
        · exact h1
      simp only [List.length_append, List.length_drop, List.length_singleton]
      omega
    · rw [if_neg (not_le.mpr hcap)]
      have : (s.revokeStack.length : ℤ) < ⌈s.MAX_REVOKE_STEPS⌉ := by
        rw [Int.lt_ceil]
        exact_mod_cast hcap
      simp only [List.length_append, List.length_singleton]
      omega
  · unfold _saveImageData
    rw [if_pos ht]
    exact hlen

theorem stackInv_congr {a b : DrawingBoard} (h1 : a.revokeStack = b.revokeStack)
    (h2 : a.MAX_REVOKE_STEPS = b.MAX_REVOKE_STEPS) (h : StackInv b) : StackInv a := by
  rw [StackInv, h1, h2]
  exact h

theorem drawCircle_fields (x y : ℚ) (r : JSNum) (c : String) (s : DrawingBoard) :
    (_drawCircle x y r c s).revokeStack = s.revokeStack ∧
    (_drawCircle x y r c s).MAX_REVOKE_STEPS = s.MAX_REVOKE_STEPS ∧
    (_drawCircle x y r c s).hasCtx = s.hasCtx := by
  unfold _drawCircle
  split_ifs <;> simp

theorem drawLine_fields (x1 y1 x2 y2 : ℚ) (w : JSNum) (c : String) (s : DrawingBoard) :
    (_drawLine x1 y1 x2 y2 w c s).revokeStack = s.revokeStack ∧
    (_drawLine x1 y1 x2 y2 w c s).MAX_REVOKE_STEPS = s.MAX_REVOKE_STEPS ∧
    (_drawLine x1 y1 x2 y2 w c s).hasCtx = s.hasCtx := by
  unfold _drawLine
  split_ifs <;> simp

theorem drawBg_fields (o : Bool) (w h : ℚ) (s : DrawingBoard) :
    (_drawBg o w h s).revokeStack = s.revokeStack ∧
    (_drawBg o w h s).MAX_REVOKE_STEPS = s.MAX_REVOKE_STEPS ∧
    (_drawBg o w h s).hasCtx = s.hasCtx ∧
    (_drawBg o w h s).hasRevokeCb = s.hasRevokeCb ∧
    (_drawBg o w h s).paintCount = s.paintCount ∧
    (_drawBg o w h s).cbTrace = s.cbTrace ∧
    (_drawBg o w h s).width = s.width ∧
    (_drawBg o w h s).height = s.height ∧
    (_drawBg o w h s).bgImgRotate = s.bgImgRotate := by
  unfold _drawBg
  split_ifs <;> simp

theorem setSize_fields (w h : ℚ) (s : DrawingBoard) :
    (setSize w h s).revokeStack = s.revokeStack ∧
    (setSize w h s).MAX_REVOKE_STEPS = s.MAX_REVOKE_STEPS ∧
    (setSize w h s).bgImgRotate = s.bgImgRotate ∧
    (setSize w h s).originalSize = s.originalSize ∧
    (setSize w h s).hasBgImgObject = s.hasBgImgObject ∧
    (setSize w h s).hasCtx = s.hasCtx ∧
    (setSize w h s).cbTrace = s.cbTrace ∧
    (setSize w h s).hasRevokeCb = s.hasRevokeCb ∧
    (setSize w h s).paintCount = s.paintCount ∧
    (setSize w h s).pix = s.pix := by
  unfold setSize
  split_ifs <;> simp

theorem setSize_wh (w h : ℚ) (s : DrawingBoard) :
    (setSize w h s).width = (if w ≠ 0 then w else s.width) ∧
    (setSize w h s).height = (if h ≠ 0 then h else s.height) := by
  unfold setSize
  split_ifs <;> simp

theorem setPenStyle_fields (c w : JSVal) (s : DrawingBoard) :
    (setPenStyle c w s).revokeStack = s.revokeStack ∧
    (setPenStyle c w s).MAX_REVOKE_STEPS = s.MAX_REVOKE_STEPS ∧
    (setPenStyle c w s).hasCtx = s.hasCtx ∧
    (setPenStyle c w s).cbTrace = s.cbTrace ∧
    (setPenStyle c w s).hasRevokeCb = s.hasRevokeCb ∧
    (setPenStyle c w s).paintCount = s.paintCount ∧
    (setPenStyle c w s).pix = s.pix ∧
    (setPenStyle c w s).width = s.width ∧
    (setPenStyle c w s).height = s.height := by
  unfold setPenStyle
  split_ifs <;> simp

/-- Source `rotate` with an invalid direction is a complete no-op. -/

theorem rotate_guard (d : ℚ) (s : DrawingBoard) (hd : ¬ (d = 1 ∨ d = -1)) :
    rotate d s = (s, false) := by
  simp only [rotate, if_pos hd]

/-- Source `rotate` with a valid direction on a board whose `originalSize` was never
set: the rotation and size mutations happen, then the spread of `undefined`
throws before `paintCount` and `revokeStack` are reset. -/

theorem rotate_eq_none (d : ℚ) (s : DrawingBoard) (hd : d = 1 ∨ d = -1)
    (hos : s.originalSize = none) :
    rotate d s = (setSize s.height s.width
      { s with bgImgRotate := _getLawfulRotateAngle (jsretAddQ s.bgImgRotate (qmul d 90)) },
      true) := by
  simp only [rotate, if_neg (not_not_intro hd)]
  have h1 : (setSize s.height s.width
      { s with bgImgRotate := _getLawfulRotateAngle (jsretAddQ s.bgImgRotate (qmul d 90)) }).originalSize
      = none := by
    rw [(setSize_fields _ _ _).2.2.2.1]
    exact hos
  rw [h1]

/-- Source `rotate` with a valid direction on a board with a recorded original size:
rotation advanced, size swapped, background redrawn, then paint count and
revoke stack reset. -/

theorem rotate_eq_some (d : ℚ) (s : DrawingBoard) (hd : d = 1 ∨ d = -1)
    (w h : ℚ) (hos : s.originalSize = some (w, h)) :
    rotate d s = ({ _drawBg (setSize s.height s.width
        { s with bgImgRotate := _getLawfulRotateAngle (jsretAddQ s.bgImgRotate (qmul d 90)) }).hasBgImgObject
        w h
        (setSize s.height s.width
          { s with bgImgRotate := _getLawfulRotateAngle (jsretAddQ s.bgImgRotate (qmul d 90)) })
      with paintCount := 0, revokeStack := [] }, false) := by
  simp only [rotate, if_neg (not_not_intro hd)]
  have h1 : (setSize s.height s.width
      { s with bgImgRotate := _getLawfulRotateAngle (jsretAddQ s.bgImgRotate (qmul d 90)) }).originalSize
      = some (w, h) := by
    rw [(setSize_fields _ _ _).2.2.2.1]
    exact hos
  rw [h1]

/-- Source `clear` without a context or element is a complete no-op. -/

theorem clear_guard (s : DrawingBoard) (hg : s.hasCtx = false ∨ s.hasEl = false) :
    clear s = s := by
  simp only [clear, if_pos hg]

/-- Source `clear` on a usable board: the surface is snapshotted (tagged `clear`,
carrying the pre-clear paint count and pixels) onto the stack with the usual
capacity eviction, and the context survives. -/

theorem clear_push (s : DrawingBoard) (hctx : s.hasCtx = true) (hel : s.hasEl = true) :
    (clear s).revokeStack = (_saveImageData "clear" s.paintCount s.pix s).revokeStack ∧
    (clear s).hasCtx = true ∧
    (clear s).MAX_REVOKE_STEPS = s.MAX_REVOKE_STEPS := by
  have hg : ¬ (s.hasCtx = false ∨ s.hasEl = false) := by
    simp [hctx, hel]
  have hsv := saveImageData_fields "clear" s.paintCount s.pix s
  have hctx' : (_saveImageData "clear" s.paintCount s.pix s).hasCtx = true := by
    rw [hsv.1]
    exact hctx
  simp only [clear, if_neg hg]
  split_ifs with hbg
  · split
    · exact ⟨(drawBg_fields _ _ _ _).1,
        by rw [(drawBg_fields _ _ _ _).2.2.1]; exact hctx',
        by rw [(drawBg_fields _ _ _ _).2.1]; exact hsv.2.2.2.2.2.1⟩
    · exact ⟨rfl, hctx', hsv.2.2.2.2.2.1⟩
  · exact ⟨rfl, hctx', hsv.2.2.2.2.2.1⟩

/-- Source `_revoke` on a board with a context and a non-empty stack (written as
`l ++ [e]`): the newest entry is popped, its snapshot becomes the surface, the
paint count is restored from the entry, and the callback (when registered)
receives the remaining stack. -/

theorem revoke_spec_pop (s : DrawingBoard) (hctx : s.hasCtx = true)
    (l : List HistoryEntry) (e : HistoryEntry) (hst : s.revokeStack = l ++ [e]) :
    (revoke s).pix = e.imageData ∧
    (revoke s).paintCount = e.paintCount ∧
    (revoke s).revokeStack = l ∧
    (revoke s).cbTrace = (if s.hasRevokeCb then s.cbTrace ++ [l] else s.cbTrace) := by
  have hlast : s.revokeStack.getLast? = some e := by
    rw [hst, List.getLast?_concat]
  have hdrop : s.revokeStack.dropLast = l := by
    rw [hst, List.dropLast_concat]
  simp only [revoke, _revoke, hctx, hlast, hdrop]
  rw [if_neg (by simp : ¬ (true = false))]
  split_ifs with hcb <;> simp [hcb]

/-- Source `_revoke` on a board with an empty stack is a complete no-op, whether or
not a context is present. -/

theorem revoke_spec_empty (s : DrawingBoard) (hst : s.revokeStack = []) :
    revoke s = s := by
  have hlast : s.revokeStack.getLast? = none := by
    rw [hst]
    rfl
  simp only [revoke, _revoke, hlast]
  split_ifs <;> rfl

/-- Source `_revoke` never changes the context, the element, or the capacity. -/

theorem revoke_fields (s : DrawingBoard) :
    (revoke s).hasCtx = s.hasCtx ∧
    (revoke s).MAX_REVOKE_STEPS = s.MAX_REVOKE_STEPS := by
  constructor <;>
    · simp only [revoke, _revoke]
      split_ifs <;> first
        | rfl
        | (split <;> rfl)

/-- Every public operation preserves the stack-length invariant. -/

theorem applyOp_stackInv (s : DrawingBoard) (op : Op) (h : StackInv s) :
    StackInv (applyOp s op) := by
  obtain ⟨hM, hlen⟩ := h
  cases op with
  | mount => exact ⟨hM, hlen⟩
  | pointerStart x y =>
    show StackInv (_handlePointerStart x y s)
    unfold _handlePointerStart
    refine stackInv_congr (drawCircle_fields _ _ _ _ _).1 (drawCircle_fields _ _ _ _ _).2.1 ?_
    split_ifs with hctx
    · exact ⟨by rw [(saveImageData_fields _ _ _ _).2.2.2.2.2.1]; exact hM,
        by rw [(saveImageData_fields _ _ _ _).2.2.2.2.2.1]
           exact saveImageData_inv _ _ _ _ hM hlen⟩
    · exact ⟨hM, hlen⟩
  | pointerMove x y =>
    show StackInv (_handlePointerMove x y s)
    unfold _handlePointerMove
    split_ifs with hp
    · exact ⟨hM, hlen⟩
    · split
      · exact ⟨hM, hlen⟩
      · exact stackInv_congr (drawLine_fields _ _ _ _ _ _ _).1
          (drawLine_fields _ _ _ _ _ _ _).2.1 ⟨hM, hlen⟩
  | pointerEnd => exact ⟨hM, hlen⟩
  | clearOp =>
    show StackInv (clear s)
    by_cases hg : s.hasCtx = false ∨ s.hasEl = false
    · rw [clear_guard s hg]
      exact ⟨hM, hlen⟩
    · push_neg at hg
      obtain ⟨hc, he⟩ := hg
      obtain ⟨hstk, _, hmax⟩ :=
        clear_push s (by simpa using hc) (by simpa using he)
      refine ⟨by rw [hmax]; exact hM, ?_⟩
      rw [hmax, hstk]
      exact saveImageData_inv _ _ _ _ hM hlen
  | revokeOp =>
    show StackInv (revoke s)
    by_cases hctx : s.hasCtx = true
    · rcases List.eq_nil_or_concat s.revokeStack with hnil | ⟨l, e, hle⟩
      · rw [revoke_spec_empty s hnil]
        exact ⟨hM, hlen⟩
      · rw [List.concat_eq_append] at hle
        obtain ⟨_, _, hstk, hcb⟩ := revoke_spec_pop s hctx l e hle
        have hmax : (revoke s).MAX_REVOKE_STEPS = s.MAX_REVOKE_STEPS :=
          (revoke_fields s).2
        refine ⟨by rw [hmax]; exact hM, ?_⟩
        rw [hmax, hstk]
        rw [hle] at hlen
        simp only [List.length_append, List.length_singleton] at hlen
        omega
    · have hc : s.hasCtx = false := by
        simpa using hctx
      have : revoke s = s := by
        simp only [revoke, _revoke, hc]
        rfl
      rw [this]
      exact ⟨hM, hlen⟩
  | rotateOp d =>
    show StackInv (rotate d s).1
    by_cases hd : d = 1 ∨ d = -1
    · rcases hos : s.originalSize with _ | ⟨w, h⟩
      · rw [rotate_eq_none d s hd hos]
        exact stackInv_congr (setSize_fields _ _ _).1 (setSize_fields _ _ _).2.1 ⟨hM, hlen⟩
      · rw [rotate_eq_some d s hd w h hos]
        refine ⟨?_, ?_⟩
        · show (0:ℚ) < (_drawBg _ _ _ _).MAX_REVOKE_STEPS
          rw [(drawBg_fields _ _ _ _).2.1, (setSize_fields _ _ _).2.1]
          exact hM
        · show ((List.length ([] : List HistoryEntry) : ℤ)) ≤
            ⌈(_drawBg _ _ _ _).MAX_REVOKE_STEPS⌉
          rw [(drawBg_fields _ _ _ _).2.1, (setSize_fields _ _ _).2.1]
          simp only [List.length_nil, Nat.cast_zero]
          exact le_of_lt (Int.ceil_pos.mpr hM)
    · rw [rotate_guard d s hd]
      exact ⟨hM, hlen⟩
  | setSizeOp w h =>
    exact stackInv_congr (setSize_fields _ _ _).1 (setSize_fields _ _ _).2.1 ⟨hM, hlen⟩
  | setPenStyleOp c w =>
    exact stackInv_congr (setPenStyle_fields _ _ _).1 (setPenStyle_fields _ _ _).2.1 ⟨hM, hlen⟩
  | bgResolved w h =>
    exact stackInv_congr (drawBg_fields _ _ _ _).1 (drawBg_fields _ _ _ _).2.1 ⟨hM, hlen⟩
  | bgFailed => exact ⟨hM, hlen⟩
  | destory => exact ⟨hM, hlen⟩
  | reInitOp w h maxSteps mode rotOpt penC penW cb =>
    refine ⟨?_, ?_⟩
    · show (0:ℚ) < (setPenStyle penC penW _).MAX_REVOKE_STEPS
      rw [(setPenStyle_fields _ _ _).2.1]
      exact (lawfulMaxRevokeSteps_bounds maxSteps).1
    · show (((setPenStyle penC penW _).revokeStack.length : ℤ)) ≤
        ⌈(setPenStyle penC penW _).MAX_REVOKE_STEPS⌉
      rw [(setPenStyle_fields _ _ _).2.1, (setPenStyle_fields _ _ _).1]
      simp only [List.length_nil, Nat.cast_zero]
      exact le_of_lt (Int.ceil_pos.mpr (lawfulMaxRevokeSteps_bounds maxSteps).1)

/-- Boards without a drawing context always have an empty revoke stack: the
only pushes (`_handlePointerStart`, `clear`) are guarded by the context, and
nothing ever removes a context.  So the context hypothesis of the pop case of
C1 excludes no reachable board state. -/

theorem applyOp_ctxEmpty (s : DrawingBoard) (op : Op)
    (h : s.hasCtx = false → s.revokeStack = []) :
    (applyOp s op).hasCtx = false → (applyOp s op).revokeStack = [] := by
  cases op with
  | mount =>
    intro hc
    exact Bool.noConfusion (show (true : Bool) = false from hc)
  | pointerStart x y =>
    intro hc
    replace hc : (_handlePointerStart x y s).hasCtx = false := hc
    have hcx : (_handlePointerStart x y s).hasCtx = s.hasCtx := by
      unfold _handlePointerStart
      rw [(drawCircle_fields _ _ _ _ _).2.2]
      split_ifs with h1
      · exact (saveImageData_fields _ _ _ _).1
      · rfl
    rw [hcx] at hc
    show (_handlePointerStart x y s).revokeStack = []
    unfold _handlePointerStart
    rw [(drawCircle_fields _ _ _ _ _).1]
    rw [if_neg (by show ¬ (s.hasCtx = true); rw [hc]; simp)]
    exact h hc
  | pointerMove x y =>
    intro hc
    replace hc : (_handlePointerMove x y s).hasCtx = false := hc
    have hcx : (_handlePointerMove x y s).hasCtx = s.hasCtx := by
      unfold _handlePointerMove
      split_ifs with h1
      · rfl
      · split
        · rfl
        · exact (drawLine_fields _ _ _ _ _ _ _).2.2
    have hsx : (_handlePointerMove x y s).revokeStack = s.revokeStack := by
      unfold _handlePointerMove
      split_ifs with h1
      · rfl
      · split
        · rfl
        · exact (drawLine_fields _ _ _ _ _ _ _).1
    rw [hcx] at hc
    show (_handlePointerMove x y s).revokeStack = []
    rw [hsx]
    exact h hc
  | pointerEnd =>
    intro hc
    replace hc : s.hasCtx = false := hc
    exact h hc
  | clearOp =>
    by_cases hg : (s.hasCtx = false ∨ s.hasEl = false)
    · rw [show applyOp s Op.clearOp = clear s from rfl, clear_guard s hg]
      exact h
    · push_neg at hg
      intro hc
      replace hc : (clear s).hasCtx = false := hc
      rw [(clear_push s (by simpa using hg.1) (by simpa using hg.2)).2.1] at hc
      simp at hc
  | revokeOp =>
    intro hc
    replace hc : (revoke s).hasCtx = false := hc
    rw [(revoke_fields s).1] at hc
    have hempty := h hc
    rw [show applyOp s Op.revokeOp = revoke s from rfl, revoke_spec_empty s hempty]
    exact hempty
  | rotateOp d =>
    by_cases hd : d = 1 ∨ d = -1
    · rcases hos : s.originalSize with _ | ⟨w, hgt⟩
      · intro hc
        replace hc : (rotate d s).1.hasCtx = false := hc
        rw [rotate_eq_none d s hd hos] at hc
        rw [(setSize_fields _ _ _).2.2.2.2.2.1] at hc
        show (rotate d s).1.revokeStack = []
        rw [rotate_eq_none d s hd hos, (setSize_fields _ _ _).1]
        exact h hc
      · intro hc
        show (rotate d s).1.revokeStack = []
        rw [rotate_eq_some d s hd w hgt hos]
    · intro hc
      replace hc : (rotate d s).1.hasCtx = false := hc
      rw [rotate_guard d s hd] at hc
      show (rotate d s).1.revokeStack = []
      rw [rotate_guard d s hd]
      exact h hc
  | setSizeOp w hgt =>
    intro hc
    replace hc : (setSize w hgt s).hasCtx = false := hc
    rw [(setSize_fields _ _ _).2.2.2.2.2.1] at hc
    show (setSize w hgt s).revokeStack = []
    rw [(setSize_fields _ _ _).1]
    exact h hc
  | setPenStyleOp c w =>
    intro hc
    replace hc : (setPenStyle c w s).hasCtx = false := hc
    rw [(setPenStyle_fields _ _ _).2.2.1] at hc
    show (setPenStyle c w s).revokeStack = []
    rw [(setPenStyle_fields _ _ _).1]
    exact h hc
  | bgResolved w hgt =>
    intro hc
    replace hc : (_drawBg true w hgt
      { s with hasBgImgObject := true, originalSize := some (w, hgt) }).hasCtx = false := hc
    rw [(drawBg_fields _ _ _ _).2.2.1] at hc
    show (_drawBg true w hgt
      { s with hasBgImgObject := true, originalSize := some (w, hgt) }).revokeStack = []
    rw [(drawBg_fields _ _ _ _).1]
    exact h hc
  | bgFailed =>
    intro hc
    replace hc : s.hasCtx = false := hc
    exact h hc
  | destory =>
    intro hc
    replace hc : s.hasCtx = false := hc
    exact h hc
  | reInitOp w hgt maxSteps mode rotOpt penC penW cb =>
    intro hc
    exact Bool.noConfusion (show (true : Bool) = false from hc)

/-! ### `setPenStyle` analysis -/

theorem colorCond_iff (c : JSVal) :
    (truthyVal c && isStringVal c) = true ↔ ∃ v, c = .str v ∧ v ≠ "" := by
  cases c with
  | num n => cases n <;> simp [truthyVal, isStringVal]
  | str v => simp [truthyVal, isStringVal]
  | bool b => simp [truthyVal, isStringVal]
  | undefined => simp [truthyVal, isStringVal]
  | null => simp [truthyVal, isStringVal]

theorem widthCond_iff (w : JSVal) :
    (truthyVal w && isNumberVal w && !isNaNVal w && gtZeroVal w) = true ↔
      ((∃ q : ℚ, w = .num (.fin q) ∧ 0 < q) ∨ w = .num .posInf) := by
  cases w with
  | num n =>
    cases n with
    | fin q =>
      simp only [truthyVal, isNumberVal, isNaNVal, gtZeroVal, jsLtN]
      constructor
      · intro h
        simp only [Bool.and_eq_true, decide_eq_true_eq] at h
        exact Or.inl ⟨q, rfl, h.2⟩
      · intro h
        rcases h with ⟨q', hq', hpos⟩ | h
        · cases hq'
          simp [hpos, hpos.ne']
        · cases h
    | nan => simp [truthyVal, isNumberVal, isNaNVal, gtZeroVal, jsLtN]
    | posInf => simp [truthyVal, isNumberVal, isNaNVal, gtZeroVal, jsLtN]
    | negInf => simp [truthyVal, isNumberVal, isNaNVal, gtZeroVal, jsLtN]
  | str v => simp [truthyVal, isNumberVal, isNaNVal, gtZeroVal]
  | bool b => simp [truthyVal, isNumberVal, isNaNVal, gtZeroVal]
  | undefined => simp [truthyVal, isNumberVal, isNaNVal, gtZeroVal]
  | null => simp [truthyVal, isNumberVal, isNaNVal, gtZeroVal]

theorem setPenStyle_eval (c w : JSVal) (s : DrawingBoard) :
    (setPenStyle c w s).penColor =
      (if truthyVal c && isStringVal c then strOfVal c else s.penColor) ∧
    (setPenStyle c w s).penWidth =
      (if truthyVal w && isNumberVal w && !isNaNVal w && gtZeroVal w then
        numOfVal w else s.penWidth) := by
  unfold setPenStyle
  split_ifs <;> simp_all

/-! ### Rotation claims -/

/-- One valid `rotate` advances the normalized rotation and swaps nonzero
width/height, whether or not the TypeError on a missing `originalSize` is
thrown afterwards. -/

theorem rotate_triple (d : ℚ) (s : DrawingBoard) (hd : d = 1 ∨ d = -1)
    (hw : s.width ≠ 0) (hh : s.height ≠ 0) :
    (rotate d s).1.bgImgRotate =
      _getLawfulRotateAngle (jsretAddQ s.bgImgRotate (qmul d 90)) ∧
    (rotate d s).1.width = s.height ∧
    (rotate d s).1.height = s.width := by
  rcases hos : s.originalSize with _ | ⟨w, h⟩
  · rw [rotate_eq_none d s hd hos]
    refine ⟨?_, ?_, ?_⟩
    · rw [(setSize_fields _ _ _).2.2.1]
    · rw [(setSize_wh _ _ _).1, if_pos hh]
    · rw [(setSize_wh _ _ _).2, if_pos hw]
  · rw [rotate_eq_some d s hd w h hos]
    refine ⟨?_, ?_, ?_⟩
    · show (_drawBg _ _ _ _).bgImgRotate = _
      rw [(drawBg_fields _ _ _ _).2.2.2.2.2.2.2.2, (setSize_fields _ _ _).2.2.1]
    · show (_drawBg _ _ _ _).width = _
      rw [(drawBg_fields _ _ _ _).2.2.2.2.2.2.1, (setSize_wh _ _ _).1, if_pos hh]
    · show (_drawBg _ _ _ _).height = _
      rw [(drawBg_fields _ _ _ _).2.2.2.2.2.2.2.1, (setSize_wh _ _ _).2, if_pos hw]

/-- Claim C7: on every finite number the angle normalizer is idempotent
(normalizing its own output returns it unchanged), and the concrete values
check out: `-90 ↦ 270`, `450 ↦ 90`, `10 ↦ 0`, `55 ↦ 90`. -/

theorem c7_normalize_angle_idempotent :
    (∀ q : ℚ, _getLawfulRotateAngle (retToVal (_getLawfulRotateAngle (.num (.fin q)))) =
        _getLawfulRotateAngle (.num (.fin q))) ∧
    _getLawfulRotateAngle (.num (.fin (-90))) = .num (.fin 270) ∧
    _getLawfulRotateAngle (.num (.fin 450)) = .num (.fin 90) ∧
    _getLawfulRotateAngle (.num (.fin 10)) = .num (.fin 0) ∧
    _getLawfulRotateAngle (.num (.fin 55)) = .num (.fin 90) := by
  refine ⟨?_, by decide, by decide, by decide, by decide⟩
  intro q
  obtain ⟨r, hr, hc⟩ := lawfulRotate_fin_cases q
  rw [hr]
  show _getLawfulRotateAngle (.num (.fin r)) = _
  rcases hc with h | h | h | h <;> subst h <;> decide

/-- Claim C8 counterexample: on `Infinity` the angle normalizer returns `NaN`,
not `undefined` — `typeof Infinity === "number"` and `isNaN(Infinity)` is
false, so the guard passes and `Infinity % 360` yields NaN. -/

theorem c8_counterexample :
    _getLawfulRotateAngle (.num .posInf) = .num .nan ∧
      _getLawfulRotateAngle (.num .posInf) ≠ .undefined := by decide

/-- Claim C8 (amended): non-number inputs and NaN yield `undefined`; the two
infinities yield `NaN` (not `undefined`); every finite number input yields a
finite multiple of 90 in `[0, 360)`. -/

theorem c8_normalize_angle_domains :
    (∀ s : String, _getLawfulRotateAngle (.str s) = .undefined) ∧
    (∀ b : Bool, _getLawfulRotateAngle (.bool b) = .undefined) ∧
    _getLawfulRotateAngle .undefined = .undefined ∧
    _getLawfulRotateAngle .null = .undefined ∧
    _getLawfulRotateAngle (.num .nan) = .undefined ∧
    _getLawfulRotateAngle (.num .posInf) = .num .nan ∧
    _getLawfulRotateAngle (.num .negInf) = .num .nan ∧
    (∀ q : ℚ, ∃ r : ℚ, _getLawfulRotateAngle (.num (.fin q)) = .num (.fin r) ∧
      (r = 0 ∨ r = 90 ∨ r = 180 ∨ r = 270)) := by
  refine ⟨fun s => rfl, fun b => rfl, rfl, rfl, rfl, by decide, by decide,
    lawfulRotate_fin_cases⟩

/-- Claim C6 counterexample: the configured value `0.5` resolves to `0.5`
itself — it passes the `steps <= 0` and `typeof`/`isNaN` guards and is below
the cap of 50 — so the effective maximum is not clamped into `[1, 50]`. -/

theorem c6_counterexample :
    _getLawfulMaxRevokeSteps (.num (.fin (Rat.divInt 1 2))) = Rat.divInt 1 2 ∧
      ¬ (1 ≤ _getLawfulMaxRevokeSteps (.num (.fin (Rat.divInt 1 2)))) := by decide

/-- Claim C6 (amended): `0`, `-5`, `"abc"` and `NaN` resolve to the default 10
and `999` to the cap 50; every positive number up to 50 (fractions below 1
included) is kept unchanged, numbers above 50 are capped at 50, non-positive
numbers and non-numbers fall back to 10; so the resolved value always lies in
`(0, 50]` (not `[1, 50]`). -/

theorem c6_max_revoke_steps_resolution :
    _getLawfulMaxRevokeSteps (.num (.fin 0)) = 10 ∧
    _getLawfulMaxRevokeSteps (.num (.fin (-5))) = 10 ∧
    _getLawfulMaxRevokeSteps (.str "abc") = 10 ∧
    _getLawfulMaxRevokeSteps (.num .nan) = 10 ∧
    _getLawfulMaxRevokeSteps (.num (.fin 999)) = 50 ∧
    (∀ q : ℚ, 0 < q → q ≤ 50 → _getLawfulMaxRevokeSteps (.num (.fin q)) = q) ∧
    (∀ q : ℚ, 50 < q → _getLawfulMaxRevokeSteps (.num (.fin q)) = 50) ∧
    (∀ q : ℚ, q ≤ 0 → _getLawfulMaxRevokeSteps (.num (.fin q)) = 10) ∧
    (∀ v : JSVal, 0 < _getLawfulMaxRevokeSteps v ∧ _getLawfulMaxRevokeSteps v ≤ 50) := by
  refine ⟨by decide, by decide, by decide, by decide, by decide, ?_, ?_, ?_, ?_⟩
  · intro q h0 h50
    simp only [_getLawfulMaxRevokeSteps]
    rw [if_neg (not_le.mpr h0), if_neg (not_lt.mpr h50)]
  · intro q h50
    simp only [_getLawfulMaxRevokeSteps]
    rw [if_neg (by linarith), if_pos h50]
  · intro q h0
    simp only [_getLawfulMaxRevokeSteps]
    rw [if_pos h0]
  · intro v
    match v with
    | .num (.fin q) =>
      simp only [_getLawfulMaxRevokeSteps]
      rcases le_or_lt q 0 with h | h
      · rw [if_pos h]
        norm_num
      · rw [if_neg (not_le.mpr h)]
        rcases le_or_lt q 50 with h' | h'
        · rw [if_neg (not_lt.mpr h')]
          exact ⟨h, h'⟩
        · rw [if_pos h']
          norm_num
    | .num .nan => exact ⟨by decide, by decide⟩
    | .num .posInf => exact ⟨by decide, by decide⟩
    | .num .negInf => exact ⟨by decide, by decide⟩
    | .str s =>
      exact ⟨by norm_num [_getLawfulMaxRevokeSteps],
             by norm_num [_getLawfulMaxRevokeSteps]⟩
    | .bool b =>
      exact ⟨by norm_num [_getLawfulMaxRevokeSteps],
             by norm_num [_getLawfulMaxRevokeSteps]⟩
    | .undefined => exact ⟨by decide, by decide⟩
    | .null => exact ⟨by decide, by decide⟩

/-- Claim C6 witness: a value inside the kept range and one above the cap,
through the amended theorem. -/

theorem c6_witness :
    _getLawfulMaxRevokeSteps (.num (.fin 7)) = 7 ∧
      _getLawfulMaxRevokeSteps (.num (.fin 60)) = 50 ∧
      _getLawfulMaxRevokeSteps (.num (.fin (-3))) = 10 :=
  ⟨c6_max_revoke_steps_resolution.2.2.2.2.2.1 7 (by norm_num) (by norm_num),
   c6_max_revoke_steps_resolution.2.2.2.2.2.2.1 60 (by norm_num),
   c6_max_revoke_steps_resolution.2.2.2.2.2.2.2.1 (-3) (by norm_num)⟩

/-- Claim C1: with a usable drawing context, `revoke()` on a non-empty stack
pops the newest entry, writes its snapshot back to the full surface, restores
`paintCount` from the entry (and notifies the callback); on an empty stack it
is a complete no-op regardless of the context.  The third part shows the
context hypothesis excludes no reachable board: every operation preserves the
invariant that a board without a context has an empty stack, so on such
boards revoke is the no-op of the second part. -/

theorem c1_revoke_behavior :
    (∀ (s : DrawingBoard) (l : List HistoryEntry) (e : HistoryEntry),
      s.hasCtx = true → s.revokeStack = l ++ [e] →
      (revoke s).pix = e.imageData ∧
      (revoke s).paintCount = e.paintCount ∧
      (revoke s).revokeStack = l ∧
      (revoke s).cbTrace = (if s.hasRevokeCb then s.cbTrace ++ [l] else s.cbTrace)) ∧
    (∀ s : DrawingBoard, s.revokeStack = [] → revoke s = s) ∧
    (∀ (s : DrawingBoard) (op : Op), (s.hasCtx = false → s.revokeStack = []) →
      ((applyOp s op).hasCtx = false → (applyOp s op).revokeStack = [])) := by
  exact ⟨fun s l e h1 h2 => revoke_spec_pop s h1 l e h2, revoke_spec_empty,
    applyOp_ctxEmpty⟩

/-- Claim C1 witness: popping a concrete one-entry stack and revoking an
empty board. -/

theorem c1_witness :
    (revoke { initialBoard with
        revokeStack := [⟨"paint", 3, PixelData.init⟩],
        paintCount := 4, pix := PixelData.cleared }).pix = PixelData.init ∧
    (revoke { initialBoard with
        revokeStack := [⟨"paint", 3, PixelData.init⟩],
        paintCount := 4, pix := PixelData.cleared }).paintCount = 3 ∧
    revoke initialBoard = initialBoard ∧
    (applyOp { initialBoard with hasCtx := false }
      (Op.pointerStart 1 1)).revokeStack = [] := by
  have h := c1_revoke_behavior.1
    { initialBoard with
        revokeStack := [⟨"paint", 3, PixelData.init⟩],
        paintCount := 4, pix := PixelData.cleared }
    [] ⟨"paint", 3, PixelData.init⟩ (by decide) (by decide)
  exact ⟨h.1, h.2.1, c1_revoke_behavior.2.1 initialBoard (by decide),
    c1_revoke_behavior.2.2 { initialBoard with hasCtx := false }
      (Op.pointerStart 1 1) (fun _ => by decide) (by decide)⟩

/-- Claim C2 (amended): starting from any state satisfying the invariant
(positive resolved capacity, stack length at most its ceiling — equal to
`maxRevokeSteps` itself whenever the resolved capacity is an integer, as it is
for every integer configuration), every sequence of public operations
preserves it; and whenever a snapshot push happens with the stack at or over
capacity, exactly the oldest entry (index 0) is evicted before the push,
otherwise the push appends without eviction — preserving the relative order
of the remaining entries in both cases. -/

theorem c2_revoke_stack_bounded :
    (∀ (s : DrawingBoard) (ops : List Op),
      StackInv s → StackInv (ops.foldl applyOp s)) ∧
    (∀ (t : String) (pc : ℕ) (img : PixelData) (s : DrawingBoard),
      (t = "paint" ∨ t = "clear") →
      (s.MAX_REVOKE_STEPS ≤ (s.revokeStack.length : ℚ) →
        (_saveImageData t pc img s).revokeStack =
          s.revokeStack.drop 1 ++ [⟨t, pc, img⟩]) ∧
      (¬ s.MAX_REVOKE_STEPS ≤ (s.revokeStack.length : ℚ) →
        (_saveImageData t pc img s).revokeStack =
          s.revokeStack ++ [⟨t, pc, img⟩])) := by
  constructor
  · intro s ops h
    induction ops generalizing s with
    | nil => exact h
    | cons op rest ih =>
      exact ih (applyOp s op) (applyOp_stackInv s op h)
  · intro t pc img s ht
    have hst := saveImageData_stack t pc img s ht
    constructor
    · intro hcap
      rw [hst, if_pos hcap]
    · intro hcap
      rw [hst, if_neg hcap]

/-- Claim C2 counterexample: configuring `maxRevokeSteps: 1.5` resolves to
`1.5` (see C6), and two strokes leave the stack at length 2 > 1.5, so the
stack length does not stay at most `maxRevokeSteps` for every sequence of
public operations. -/

theorem c2_counterexample :
    ¬ (((List.foldl applyOp initialBoard
        [Op.reInitOp 300 150 (.num (.fin (Rat.divInt 3 2))) "mouse" (.num (.fin 0))
          (.str "red") (.num (.fin 6)) false,
         Op.pointerStart 1 1, Op.pointerEnd,
         Op.pointerStart 2 2]).revokeStack.length : ℚ)
      ≤ (List.foldl applyOp initialBoard
        [Op.reInitOp 300 150 (.num (.fin (Rat.divInt 3 2))) "mouse" (.num (.fin 0))
          (.str "red") (.num (.fin 6)) false,
         Op.pointerStart 1 1, Op.pointerEnd,
         Op.pointerStart 2 2]).MAX_REVOKE_STEPS) := by decide

/-- Claim C2 witness: the invariant holds after concrete strokes on a default
board, and a push at capacity evicts the oldest entry. -/

theorem c2_witness :
    StackInv (List.foldl applyOp initialBoard
      [Op.pointerStart 1 1, Op.pointerEnd, Op.clearOp]) ∧
    (_saveImageData "paint" 7 PixelData.cleared
      { initialBoard with
        MAX_REVOKE_STEPS := 1,
        revokeStack := [⟨"paint", 0, PixelData.init⟩] }).revokeStack =
      [⟨"paint", 7, PixelData.cleared⟩] := by
  constructor
  · exact c2_revoke_stack_bounded.1 initialBoard
      [Op.pointerStart 1 1, Op.pointerEnd, Op.clearOp] (by decide)
  · have h := (c2_revoke_stack_bounded.2 "paint" 7 PixelData.cleared
      { initialBoard with
        MAX_REVOKE_STEPS := 1,
        revokeStack := [⟨"paint", 0, PixelData.init⟩] } (Or.inl rfl)).1 (by decide)
    rw [h]
    decide

/-- Claim C3: on a board with a usable drawing context (and element),
`clear()` immediately followed by `revoke()` restores the exact pre-clear
surface pixels and the pre-clear paint count. -/

theorem c3_clear_then_revoke (s : DrawingBoard)
    (hctx : s.hasCtx = true) (hel : s.hasEl = true) :
    (revoke (clear s)).pix = s.pix ∧
    (revoke (clear s)).paintCount = s.paintCount := by
  obtain ⟨hstk, hctx', _⟩ := clear_push s hctx hel
  rw [saveImageData_stack "clear" s.paintCount s.pix s (Or.inr rfl)] at hstk
  have h := revoke_spec_pop (clear s) hctx' _ _ hstk
  exact ⟨h.1, h.2.1⟩

/-- Claim C3 witness: a concrete board with one painted stroke and a
background-free surface is restored by `clear` then `revoke`. -/

theorem c3_witness :
    (revoke (clear { initialBoard with
        pix := PixelData.withCircle PixelData.init 1 1 (.fin 3) "red",
        paintCount := 2 })).pix =
      PixelData.withCircle PixelData.init 1 1 (.fin 3) "red" ∧
    (revoke (clear { initialBoard with
        pix := PixelData.withCircle PixelData.init 1 1 (.fin 3) "red",
        paintCount := 2 })).paintCount = 2 :=
  c3_clear_then_revoke
    { initialBoard with
        pix := PixelData.withCircle PixelData.init 1 1 (.fin 3) "red",
        paintCount := 2 } (by decide) (by decide)

/-- Claim C4 evaluation at the failing input: with `interactiveMode: "touch"`,
binding the `start` action binds the handlers of BOTH families (`mousedown`
and `touchstart`), because `_bindCurModeEvents` stores the family under the
key `pointerType` while `_getEventItems` destructures the key `mode` (and the
rows of `eventList` carry `pointerType`, not `mode`), so the family filter
never applies.  The same happens for mode `mouse` and for every action. -/

theorem c4_family_filter_ignored :
    _bindCurModeEvents "touch" "start" =
      [⟨"mouse", "start", "mousedown", "_handlePointerStartBinded"⟩,
       ⟨"touch", "start", "touchstart", "_handlePointerStartBinded"⟩] ∧
    _bindCurModeEvents "mouse" "start" =
      [⟨"mouse", "start", "mousedown", "_handlePointerStartBinded"⟩,
       ⟨"touch", "start", "touchstart", "_handlePointerStartBinded"⟩] ∧
    _bindCurModeEvents "touch" "move" =
      [⟨"mouse", "move", "mousemove", "_handlePointerMoveBinded"⟩,
       ⟨"touch", "move", "touchmove", "_handlePointerMoveBinded"⟩] := by decide

/-- Claim C9 counterexample: `setPenStyle({width: Infinity})` stores
`Infinity` as the pen width — `Infinity` is truthy, a number, not NaN and
`> 0` — although it is not a finite number, so the pen width is not updated
only on positive finite numbers. -/

theorem c9_counterexample :
    initialBoard.penWidth = JSNum.fin 6 ∧
    (setPenStyle JSVal.undefined (JSVal.num JSNum.posInf) initialBoard).penWidth =
      JSNum.posInf := by decide

/-- Claim C9 (amended): the pen color is updated exactly when the color
argument is a non-empty string, and the pen width exactly when the width
argument is a number that is positive and not NaN — a positive finite number
or `+Infinity` (which the source accepts although it is not finite).  In all
other cases the prior value of the field is retained; `setPenStyle` is a
total function, so no exception escapes. -/

theorem c9_set_pen_style (s : DrawingBoard) (c w : JSVal) :
    ((∃ v, c = .str v ∧ v ≠ "") → (setPenStyle c w s).penColor = strOfVal c) ∧
    (¬ (∃ v, c = .str v ∧ v ≠ "") → (setPenStyle c w s).penColor = s.penColor) ∧
    (((∃ q : ℚ, w = .num (.fin q) ∧ 0 < q) ∨ w = .num .posInf) →
      (setPenStyle c w s).penWidth = numOfVal w) ∧
    (¬ ((∃ q : ℚ, w = .num (.fin q) ∧ 0 < q) ∨ w = .num .posInf) →
      (setPenStyle c w s).penWidth = s.penWidth) := by
  obtain ⟨hcol, hwid⟩ := setPenStyle_eval c w s
  refine ⟨?_, ?_, ?_, ?_⟩
  · intro h
    rw [hcol, if_pos ((colorCond_iff c).mpr h)]
  · intro h
    rw [hcol, if_neg (fun hb => h ((colorCond_iff c).mp hb))]
  · intro h
    rw [hwid, if_pos ((widthCond_iff w).mpr h)]
  · intro h
    rw [hwid, if_neg (fun hb => h ((widthCond_iff w).mp hb))]

/-- Claim C9 witness: a valid color and width are stored; an empty-string
color and a NaN width are ignored. -/

theorem c9_witness :
    (setPenStyle (.str "blue") (.num (.fin 3)) initialBoard).penColor = "blue" ∧
    (setPenStyle (.str "blue") (.num (.fin 3)) initialBoard).penWidth = JSNum.fin 3 ∧
    (setPenStyle (.str "") (.num .nan) initialBoard).penColor = "red" ∧
    (setPenStyle (.str "") (.num .nan) initialBoard).penWidth = JSNum.fin 6 := by
  have h1 := c9_set_pen_style initialBoard (.str "blue") (.num (.fin 3))
  have h2 := c9_set_pen_style initialBoard (.str "") (.num .nan)
  refine ⟨?_, ?_, ?_, ?_⟩
  · rw [h1.1 ⟨"blue", rfl, by decide⟩]
    rfl
  · rw [h1.2.2.1 (Or.inl ⟨3, rfl, by norm_num⟩)]
    rfl
  · rw [h2.2.1 (by rintro ⟨v, hv, hne⟩; cases hv; exact hne rfl)]
    rfl
  · rw [h2.2.2.2 (by
      rintro (⟨q, hq, _⟩ | h)
      · simp at hq
      · simp at h)]
    rfl

/-- Claim C5 counterexample: with stored width 0 (a zero-width container is
accepted by `setSize`, whose truthiness test then treats the dimension as
absent), four clockwise rotations return the rotation to 0 but leave the
board at 300 × 300 instead of the original 0 × 300 — `setSize([height,
width])` never writes a falsy dimension back. -/

theorem c5_counterexample :
    (rotate 1 (rotate 1 (rotate 1 (rotate 1
      { initialBoard with
          width := 0, height := 300,
          originalSize := some (100, 100) }).1).1).1).1.width = 300 ∧
    ({ initialBoard with
        width := 0, height := 300,
        originalSize := some (100, 100) } : DrawingBoard).width = 0 := by decide

/-- Claim C5 (amended): for every starting rotation in `{0, 90, 180, 270}`
and every pair of nonzero starting dimensions, four rotations with the same
valid direction return the background rotation, the stored width and the
stored height to their original values.  (With a zero dimension the
truthiness test in `setSize` drops the swap, see the counterexample.) -/

theorem c5_rotate_four_restores (s : DrawingBoard) (d : ℚ) (hd : d = 1 ∨ d = -1)
    (hw : s.width ≠ 0) (hh : s.height ≠ 0) (r : ℚ)
    (hr : s.bgImgRotate = .num (.fin r))
    (hr4 : r = 0 ∨ r = 90 ∨ r = 180 ∨ r = 270) :
    (rotate d (rotate d (rotate d (rotate d s).1).1).1).1.bgImgRotate =
      s.bgImgRotate ∧
    (rotate d (rotate d (rotate d (rotate d s).1).1).1).1.width = s.width ∧
    (rotate d (rotate d (rotate d (rotate d s).1).1).1).1.height = s.height := by
  have t1 := rotate_triple d s hd hw hh
  have hw1 : (rotate d s).1.width ≠ 0 := by
    rw [t1.2.1]
    exact hh
  have hh1 : (rotate d s).1.height ≠ 0 := by
    rw [t1.2.2]
    exact hw
  have t2 := rotate_triple d (rotate d s).1 hd hw1 hh1
  have hw2 : (rotate d (rotate d s).1).1.width ≠ 0 := by
    rw [t2.2.1]
    exact hh1
  have hh2 : (rotate d (rotate d s).1).1.height ≠ 0 := by
    rw [t2.2.2]
    exact hw1
  have t3 := rotate_triple d (rotate d (rotate d s).1).1 hd hw2 hh2
  have hw3 : (rotate d (rotate d (rotate d s).1).1).1.width ≠ 0 := by
    rw [t3.2.1]
    exact hh2
  have hh3 : (rotate d (rotate d (rotate d s).1).1).1.height ≠ 0 := by
    rw [t3.2.2]
    exact hw2
  have t4 := rotate_triple d (rotate d (rotate d (rotate d s).1).1).1 hd hw3 hh3
  refine ⟨?_, ?_, ?_⟩
  · rw [t4.1, t3.1, t2.1, t1.1, hr]
    rcases hd with hd | hd <;> subst hd <;>
      rcases hr4 with h | h | h | h <;> subst h <;> decide
  · rw [t4.2.1, t3.2.2, t2.2.1, t1.2.2]
  · rw [t4.2.2, t3.2.1, t2.2.2, t1.2.1]

/-- Claim C5 witness: four clockwise rotations of the default board
(300 × 150, rotation 0). -/

theorem c5_witness :
    (rotate 1 (rotate 1 (rotate 1 (rotate 1 initialBoard).1).1).1).1.bgImgRotate =
      JSRet.num (.fin 0) ∧
    (rotate 1 (rotate 1 (rotate 1 (rotate 1 initialBoard).1).1).1).1.width = 300 ∧
    (rotate 1 (rotate 1 (rotate 1 (rotate 1 initialBoard).1).1).1).1.height = 150 := by
  have h := c5_rotate_four_restores initialBoard 1 (Or.inl rfl)
    (by decide) (by decide) 0 rfl (Or.inl rfl)
  exact ⟨h.1, h.2.1, h.2.2⟩

/-- Claim C10 evaluation.  At the failing input — a board with a non-empty
revoke stack and a registered `onRevokeStackChange` that never loaded a
background — `rotate(1)` evaluates `...this.originalSize` with
`originalSize` undefined, which throws a TypeError before
`this.revokeStack = []` runs: the stack is NOT emptied (the callback is
indeed never invoked, and the rotation/size mutations already made persist).
With a recorded background size the intended behavior shows: the stack is
replaced by a fresh empty array silently, while a snapshot push and a revoke
pop each notify the callback with the resulting stack. -/

theorem c10_rotate_stack_reset :
    (rotate 1 c10BoardNoBg).2 = true ∧
    (rotate 1 c10BoardNoBg).1.revokeStack = [⟨"paint", 0, PixelData.init⟩] ∧
    (rotate 1 c10BoardNoBg).1.cbTrace = [] ∧
    (rotate 1 c10BoardWithBg).2 = false ∧
    (rotate 1 c10BoardWithBg).1.revokeStack = [] ∧
    (rotate 1 c10BoardWithBg).1.cbTrace = [] ∧
    (_saveImageData "paint" 0 PixelData.init
      { initialBoard with hasRevokeCb := true }).cbTrace =
      [[⟨"paint", 0, PixelData.init⟩]] ∧
    (revoke c10BoardNoBg).cbTrace = [[]] := by decide
